import Mathlib

/-!
Verification development for the action handlers of the Clipboard utility
(`src/clipboard/src/actions.cpp`).  The copy/paste/remove engines are embedded
shallowly: filesystem behaviour (whether a given `fs::copy` call succeeds or
which error it throws, whether a paste target exists and is equivalent to the
staged entry) is part of the input data, while the control flow — exception
handling, the cross-device fallback, the conflict-policy state machine, the
regex filter and the success/failure aggregation — is translated directly from
the C++ source.  Global mutable state (`successes`, `copying.failedItems`,
`copying.policy`) is passed explicitly.
-/

namespace Clipboard

/-- Error codes carried by `fs::filesystem_error`.  `cross_device_link` is the
one code the copy engine treats specially (`std::errc::cross_device_link`);
all other codes are opaque. -/
inductive ErrCode where
  | cross_device_link
  | permission_denied
  | not_found
  | disk_full
  | other (n : Nat)
  deriving DecidableEq, Repr

/-- A filesystem path, as its list of components.  A trailing directory
separator (or the root path) is encoded by an empty final component, matching
`std::filesystem::path`, where such paths have an empty `filename()`. -/
structure Path where
  comps : List String
  deriving DecidableEq, Repr

/-- The final component of the path (`fs::path::filename`), empty for a path
ending in a separator. -/
def Path.filename (p : Path) : String := p.comps.getLast?.getD ""

/-- The path without its final component (`fs::path::parent_path`). -/
def Path.parent_path (p : Path) : Path := ⟨p.comps.dropLast⟩

/-- Rendering of the path (`fs::path::string`), used only as a label in
failure records and in the originals log. -/
def Path.str (p : Path) : String := String.intercalate "/" p.comps

/-- The global success counters (`successes.files`, `successes.directories`,
`successes.bytes` in the C++ source). -/
structure Successes where
  files : Nat
  directories : Nat
  bytes : Nat
  deriving DecidableEq, Repr

/-- Modelled from the spec: `incrementSuccessesForItem` is declared in
`clipboard.hpp`, which is not part of the sources here.  Per spec §4.1 it
increments the aggregator counter matching the item: the directory counter for
a directory, the file counter otherwise.  (The byte-counting mode mentioned by
the spec is not modelled; no claim depends on it — data movement is tracked
separately by the `bytesWritten` / `copied` fields of the engine states.) -/
def incrementSuccessesForItem (isDir : Bool) (s : Successes) : Successes :=
  if isDir then { s with directories := s.directories + 1 }
  else { s with files := s.files + 1 }

/-- Per-run configuration: `copying.use_safe_copy` and whether the action is
`Action::Cut`. -/
structure Config where
  use_safe_copy : Bool
  isCut : Bool
  deriving DecidableEq, Repr

/-- A source item for `copyItem`, together with the behaviour of the
filesystem for it: `errPlain` is the outcome of `fs::copy` with the plain
`copying.opts` options (`none` = success), `errHardLink` the outcome with
`copying.opts | fs::copy_options::create_hard_links`. -/
structure Item where
  path : Path
  isDir : Bool
  size : Nat
  errPlain : Option ErrCode
  errHardLink : Option ErrCode
  deriving DecidableEq, Repr

/-- State threaded through the copy engine: the success counters, the failure
list (`copying.failedItems`), the originals log (`path.metadata.originals`,
written for cut semantics), plus observation logs: `attempts` records each
invocation of the copy lambda together with the strategy flag
(`use_regular_copy`), `createdDirs` the destination directory names passed to
`fs::create_directories`, `copied` the items whose `fs::copy` completed, and
`bytesWritten` the bytes moved by completed copies. -/
structure CopyState where
  successes : Successes
  failedItems : List (String × ErrCode)
  originals : List String
  attempts : List (String × Bool)
  createdDirs : List String
  copied : List String
  bytesWritten : Nat
  deriving DecidableEq, Repr

/-- The `actuallyCopyItem` lambda of `copyItem` (actions.cpp lines 27–37).
For a directory the destination name is the source's filename, or the
parent's filename when that is empty; the directory branch always copies with
plain options.  A file copies under its own filename, with hard links unless
`use_regular_copy`.  On success the matching counter is incremented and, for
cut semantics, the absolute source path is appended to the originals log.
`fs::create_directories` is modelled as succeeding, with `errPlain` the
outcome of the subsequent `fs::copy`.  The returned `Option ErrCode` is the
thrown `fs::filesystem_error`, if any; state mutations that precede the throw
(the attempt log, the created-directory log) are kept, later ones are not. -/
def actuallyCopyItem (cfg : Config) (use_regular_copy : Bool) (it : Item)
    (st0 : CopyState) : CopyState × Option ErrCode :=
  let st := { st0 with attempts := st0.attempts ++ [(it.path.str, use_regular_copy)] }
  if it.isDir then
    let target := if it.path.filename = "" then it.path.parent_path.filename
                  else it.path.filename
    let st := { st with createdDirs := st.createdDirs ++ [target] }
    match it.errPlain with
    | some e => (st, some e)
    | none =>
      let st := { st with copied := st.copied ++ [it.path.str],
                          bytesWritten := st.bytesWritten + it.size }
      let st := { st with successes := incrementSuccessesForItem true st.successes }
      let st := if cfg.isCut then { st with originals := st.originals ++ [it.path.str] }
                else st
      (st, none)
  else
    match (if use_regular_copy then it.errPlain else it.errHardLink) with
    | some e => (st, some e)
    | none =>
      let st := { st with copied := st.copied ++ [it.path.str],
                          bytesWritten := st.bytesWritten + it.size }
      let st := { st with successes := incrementSuccessesForItem false st.successes }
      let st := if cfg.isCut then { st with originals := st.originals ++ [it.path.str] }
                else st
      (st, none)

/-- `PerformAction::copyItem` (actions.cpp lines 26–51): try the copy with the
default strategy; if it throws and the default is the fast strategy and the
error code is `cross_device_link`, retry once with the safe strategy,
recording a failure if the retry throws; any other error is recorded as a
failure immediately. -/
def copyItem (cfg : Config) (it : Item) (st : CopyState) : CopyState :=
  match actuallyCopyItem cfg cfg.use_safe_copy it st with
  | (st1, none) => st1
  | (st1, some e) =>
    if cfg.use_safe_copy = false ∧ e = ErrCode.cross_device_link then
      match actuallyCopyItem cfg true it st1 with
      | (st2, none) => st2
      | (st2, some e2) =>
        { st2 with failedItems := st2.failedItems ++ [(it.path.str, e2)] }
    else
      { st1 with failedItems := st1.failedItems ++ [(it.path.str, e)] }

/-- `PerformAction::copy` (actions.cpp lines 53–56): apply `copyItem` to every
item of the batch in order. -/
def copy (cfg : Config) (items : List Item) (st : CopyState) : CopyState :=
  items.foldl (fun s it => copyItem cfg it s) st

/-- Modelled from the spec: the `CopyPolicy` enum lives in `clipboard.hpp`,
which is not among the sources here.  Spec §4.3 names the four decision values
skip-once, replace-once, skip-all, replace-all plus an initial "Ask" state
holding no stored decision (the `default` branch of the paste switch). -/
inductive CopyPolicy where
  | Ask
  | SkipOnce
  | ReplaceOnce
  | SkipAll
  | ReplaceAll
  deriving DecidableEq, Repr

/-- A staged entry enumerated by `fs::directory_iterator(path.data)` during
paste, bundled with the filesystem's behaviour for it: whether the paste
target (`fs::current_path() / filename`) exists, whether it is
`fs::equivalent` to the entry, and the outcome of `fs::copy` onto the target
with plain options (`errPlain`) or with `create_hard_links`
(`errHardLink`). -/
structure Entry where
  filename : String
  isDir : Bool
  size : Nat
  targetExists : Bool
  targetEquivalent : Bool
  errPlain : Option ErrCode
  errHardLink : Option ErrCode
  deriving DecidableEq, Repr

/-- State threaded through the paste engine.  `policy` is `copying.policy`;
`decisions` is the stream of answers the interactive `userDecision` collaborator
will return, consumed one per invocation (userDecision is external I/O declared
in `clipboard.hpp`; it is modelled from the spec as an injected decision
source, answering `Ask` if the stream is exhausted); `asks` logs the filename
of every `userDecision` invocation; `attempts` logs each invocation of the
`pasteItem` lambda with its strategy flag; `copied` and `bytesWritten` record
actual data movement by completed `fs::copy` calls. -/
structure PasteState where
  successes : Successes
  failedItems : List (String × ErrCode)
  policy : CopyPolicy
  decisions : List CopyPolicy
  asks : List String
  attempts : List (String × Bool)
  copied : List String
  bytesWritten : Nat
  deriving DecidableEq, Repr

/-- The `pasteItem` lambda of `paste` (actions.cpp lines 78–83): unless the
target exists and is `fs::equivalent` to the staged entry, copy the entry onto
the target (hard links only when not `use_regular_copy` and the entry is not a
directory); then increment the matching success counter.  The returned
`Option ErrCode` is the thrown `fs::filesystem_error`, if any; when the copy
throws, the success increment does not happen. -/
def pasteItem (use_regular_copy : Bool) (e : Entry)
    (st0 : PasteState) : PasteState × Option ErrCode :=
  let st := { st0 with attempts := st0.attempts ++ [(e.filename, use_regular_copy)] }
  if !(e.targetExists && e.targetEquivalent) then
    match (if use_regular_copy || e.isDir then e.errPlain else e.errHardLink) with
    | some ec => (st, some ec)
    | none =>
      ({ st with copied := st.copied ++ [e.filename],
                 bytesWritten := st.bytesWritten + e.size,
                 successes := incrementSuccessesForItem e.isDir st.successes }, none)
  else
    ({ st with successes := incrementSuccessesForItem e.isDir st.successes }, none)

/-- The body of the `try` block of the paste loop (actions.cpp lines 87–106):
if the target exists, dispatch on the current policy — `SkipAll` does nothing,
`ReplaceAll` pastes, and any other policy asks `userDecision`, stores its
answer as the new policy, and pastes when the answer is `ReplaceOnce` or
`ReplaceAll`; if the target does not exist, paste unconditionally.  The
returned `Option ErrCode` is the exception escaping the `try` body; the
returned state reflects all mutations made before the throw (in particular the
stored policy). -/
def pasteTryBody (cfg : Config) (e : Entry) (st : PasteState) :
    PasteState × Option ErrCode :=
  if e.targetExists then
    match st.policy with
    | CopyPolicy.SkipAll => (st, none)
    | CopyPolicy.ReplaceAll => pasteItem cfg.use_safe_copy e st
    | _ =>
      let d := st.decisions.headD CopyPolicy.Ask
      let st := { st with policy := d, decisions := st.decisions.tail,
                          asks := st.asks ++ [e.filename] }
      if d = CopyPolicy.ReplaceOnce ∨ d = CopyPolicy.ReplaceAll then
        pasteItem cfg.use_safe_copy e st
      else (st, none)
  else
    pasteItem cfg.use_safe_copy e st

/-- The filter of the paste loop (actions.cpp lines 84–85): an entry is kept
when the regex list is empty or some compiled regex matches the whole filename
(`std::regex_match` is whole-string matching; each compiled regex is modelled
by its whole-string match predicate `String → Bool`). -/
def keptByFilter (regexes : List (String → Bool)) (name : String) : Bool :=
  regexes.isEmpty || regexes.any (fun r => r name)

/-- The `catch` handler wrapped around one kept entry (actions.cpp lines
86–117): on an `fs::filesystem_error`, when the default strategy is not
already the safe one, retry `pasteItem` once with the safe strategy (for any
error code), recording a failure if the retry throws; otherwise record a
failure with the caught code immediately. -/
def processKept (cfg : Config) (e : Entry) (st : PasteState) : PasteState :=
  match pasteTryBody cfg e st with
  | (st1, none) => st1
  | (st1, some ec) =>
    if cfg.use_safe_copy = false then
      match pasteItem true e st1 with
      | (st2, none) => st2
      | (st2, some ec2) =>
        { st2 with failedItems := st2.failedItems ++ [(e.filename, ec2)] }
    else
      { st1 with failedItems := st1.failedItems ++ [(e.filename, ec)] }

/-- One iteration of the paste loop: skip the entry when the filter rejects
it, otherwise run the guarded paste. -/
def processEntry (cfg : Config) (regexes : List (String → Bool)) (e : Entry)
    (st : PasteState) : PasteState :=
  if keptByFilter regexes e.filename then processKept cfg e st else st

/-- The paste loop over the staged entries, in directory-iteration order. -/
def pasteEntries (cfg : Config) (regexes : List (String → Bool))
    (entries : List Entry) (st : PasteState) : PasteState :=
  entries.foldl (fun s e => processEntry cfg regexes e s) st

/-- A raw filter pattern as supplied in `copying.items`: `valid` says whether
`std::regex` construction succeeds, `matchWhole` is the compiled regex's
whole-string match predicate (`std::regex_match` semantics), and `replaceAll`
its `std::regex_replace`-with-empty-string action (used by `removeRegex` in
text mode). -/
structure Pat where
  valid : Bool
  matchWhole : String → Bool
  replaceAll : String → String

/-- The `std::transform` compiling the patterns (actions.cpp lines 71–74):
compile each pattern in order; the first invalid pattern throws, aborting with
no compiled set produced. -/
def compileRegexes : List Pat → Option (List (String → Bool))
  | [] => some []
  | p :: ps =>
    if p.valid then (compileRegexes ps).map (fun rs => p.matchWhole :: rs)
    else none

/-- `PerformAction::paste` (actions.cpp lines 70–120): compile the filter
patterns — an invalid pattern throws out of `paste` before the directory loop
runs, leaving every counter and list untouched (the `Bool` component is `true`
exactly when the operation aborted this way) — then run the loop over the
staged entries.  (The trailing `removeOldFiles()` call is external cleanup of
the staging store and is not modelled; no claim concerns it.) -/
def paste (cfg : Config) (patterns : List Pat) (entries : List Entry)
    (st : PasteState) : Bool × PasteState :=
  match compileRegexes patterns with
  | none => (true, st)
  | some rs => (false, pasteEntries cfg rs entries st)

/-- Result of the text-mode branch of `removeRegex`: `exitedWithFailure` is
`true` when the handler calls `exit(EXIT_FAILURE)` with the "couldn't match
your pattern(s)" message, `written` is the content rewritten to the raw data
file (or `none` when no write happens), and `bytesRemoved` the amount added to
`successes.bytes`. -/
structure TextRemoveResult where
  exitedWithFailure : Bool
  written : Option String
  bytesRemoved : Nat
  deriving DecidableEq, Repr

/-- The text-mode branch of `PerformAction::removeRegex` (actions.cpp lines
227–244): apply each pattern's `std::regex_replace`-with-empty-string to the
content in order; if the total length changed, rewrite the data file with the
result; otherwise do not rewrite and exit with failure. -/
def removeRegexText (replacers : List (String → String)) (content : String) :
    TextRemoveResult :=
  let newContent := replacers.foldl (fun c r => r c) content
  let removed := content.length - newContent.length
  if content.length ≠ newContent.length then
    { exitedWithFailure := false, written := some newContent, bytesRemoved := removed }
  else
    { exitedWithFailure := true, written := none, bytesRemoved := removed }

/-- A staged entry examined by the file-mode branch of `removeRegex`:
its filename, directory flag, and the outcome of `fs::remove_all` on it
(`none` = removed without throwing). -/
structure RmEntry where
  filename : String
  isDir : Bool
  errRemove : Option ErrCode
  deriving DecidableEq, Repr

/-- The file-mode aggregation state of `removeRegex`: the global success
counters, the failure list, and a log of the entries actually removed. -/
structure RmState where
  successes : Successes
  failedItems : List (String × ErrCode)
  removed : List String
  deriving DecidableEq, Repr

/-- The inner pattern loop of file-mode `removeRegex` (actions.cpp lines
247–256): for each pattern whose whole-string match accepts the filename,
attempt `fs::remove_all` and increment the matching counter on success, or
record a failure on a thrown error.  (`incrementSuccessesForItem` is applied
with the entry's directory flag; a second match of the same entry repeats the
attempt, as in the source.) -/
def removeEntry (regexes : List (String → Bool)) (en : RmEntry)
    (st : RmState) : RmState :=
  regexes.foldl
    (fun s r =>
      if r en.filename then
        match en.errRemove with
        | none =>
          { s with successes := incrementSuccessesForItem en.isDir s.successes,
                   removed := s.removed ++ [en.filename] }
        | some ec => { s with failedItems := s.failedItems ++ [(en.filename, ec)] }
      else s)
    st

/-- The file-mode branch of `PerformAction::removeRegex` (actions.cpp lines
245–266): run the removal loops over all staged entries, then exit with
failure exactly when both the directory counter and the file counter of the
global successes are zero.  The `Bool` component is that
exit-with-failure flag. -/
def removeRegexFiles (regexes : List (String → Bool)) (entries : List RmEntry)
    (st : RmState) : Bool × RmState :=
  let st := entries.foldl (fun s en => removeEntry regexes en s) st
  if st.successes.directories = 0 ∧ st.successes.files = 0 then (true, st)
  else (false, st)

/-- The `pasteItem` lambda never touches the conflict policy, the prompt log,
the pending decisions, or the failure list. -/
theorem pasteItem_fields (u : Bool) (e : Entry) (st : PasteState) :
    ((pasteItem u e st).1).policy = st.policy ∧
    ((pasteItem u e st).1).asks = st.asks ∧
    ((pasteItem u e st).1).decisions = st.decisions ∧
    ((pasteItem u e st).1).failedItems = st.failedItems := by
  unfold pasteItem
  dsimp only
  split
  · split <;> simp
  · simp

/-- The catch handler changes the policy, the prompt log and the pending
decisions exactly as the try body does: the retry and the failure recording
leave them alone. -/
theorem processKept_fields (cfg : Config) (e : Entry) (st : PasteState) :
    (processKept cfg e st).policy = ((pasteTryBody cfg e st).1).policy ∧
    (processKept cfg e st).asks = ((pasteTryBody cfg e st).1).asks ∧
    (processKept cfg e st).decisions = ((pasteTryBody cfg e st).1).decisions := by
  unfold processKept
  rcases htb : pasteTryBody cfg e st with ⟨st1, oe⟩
  rcases oe with _ | ec
  · exact ⟨rfl, rfl, rfl⟩
  · dsimp only
    split
    · rcases hpi : pasteItem true e st1 with ⟨st2, oe2⟩
      have hfields := pasteItem_fields true e st1
      rw [hpi] at hfields
      rcases oe2 with _ | ec2
      · exact ⟨hfields.1, hfields.2.1, hfields.2.2.1⟩
      · exact ⟨hfields.1, hfields.2.1, hfields.2.2.1⟩
    · exact ⟨rfl, rfl, rfl⟩

/-- Once the stored policy is an "All" variant, the try body never reaches the
`userDecision` branch: policy and prompt log are unchanged. -/
theorem pasteTryBody_all (cfg : Config) (e : Entry) (st : PasteState)
    (h : st.policy = CopyPolicy.SkipAll ∨ st.policy = CopyPolicy.ReplaceAll) :
    ((pasteTryBody cfg e st).1).policy = st.policy ∧
    ((pasteTryBody cfg e st).1).asks = st.asks := by
  have hpi := pasteItem_fields cfg.use_safe_copy e st
  unfold pasteTryBody
  cases hp : st.policy with
  | SkipAll =>
    split
    · exact ⟨hp, rfl⟩
    · exact ⟨hpi.1.trans hp, hpi.2.1⟩
  | ReplaceAll =>
    split
    · exact ⟨hpi.1.trans hp, hpi.2.1⟩
    · exact ⟨hpi.1.trans hp, hpi.2.1⟩
  | Ask => rw [hp] at h; rcases h with h | h <;> exact CopyPolicy.noConfusion h
  | SkipOnce => rw [hp] at h; rcases h with h | h <;> exact CopyPolicy.noConfusion h
  | ReplaceOnce => rw [hp] at h; rcases h with h | h <;> exact CopyPolicy.noConfusion h

/-- One paste-loop iteration keeps an "All" policy and the prompt log. -/
theorem processEntry_all (cfg : Config) (rs : List (String → Bool)) (e : Entry)
    (st : PasteState)
    (h : st.policy = CopyPolicy.SkipAll ∨ st.policy = CopyPolicy.ReplaceAll) :
    (processEntry cfg rs e st).policy = st.policy ∧
    (processEntry cfg rs e st).asks = st.asks := by
  unfold processEntry
  split
  · have hk := processKept_fields cfg e st
    have ht := pasteTryBody_all cfg e st h
    exact ⟨hk.1.trans ht.1, hk.2.1.trans ht.2⟩
  · exact ⟨rfl, rfl⟩

/-- The whole paste loop keeps an "All" policy and the prompt log. -/
theorem pasteEntries_all (cfg : Config) (rs : List (String → Bool))
    (entries : List Entry) :
    ∀ st : PasteState,
      st.policy = CopyPolicy.SkipAll ∨ st.policy = CopyPolicy.ReplaceAll →
      (pasteEntries cfg rs entries st).policy = st.policy ∧
      (pasteEntries cfg rs entries st).asks = st.asks := by
  induction entries with
  | nil => exact fun st _ => ⟨rfl, rfl⟩
  | cons e es ih =>
    intro st h
    have hstep := processEntry_all cfg rs e st h
    have hrest := ih (processEntry cfg rs e st) (by rw [hstep.1]; exact h)
    have hfold : pasteEntries cfg rs (e :: es) st
        = pasteEntries cfg rs es (processEntry cfg rs e st) := rfl
    rw [hfold]
    exact ⟨hrest.1.trans hstep.1, hrest.2.trans hstep.2⟩

/-- On a collision while no "All" policy is stored, the try body invokes
`userDecision`: exactly one prompt for this entry's filename is logged. -/
theorem pasteTryBody_prompt (cfg : Config) (e : Entry) (st : PasteState)
    (h1 : st.policy ≠ CopyPolicy.SkipAll) (h2 : st.policy ≠ CopyPolicy.ReplaceAll)
    (hx : e.targetExists = true) :
    ((pasteTryBody cfg e st).1).asks = st.asks ++ [e.filename] := by
  unfold pasteTryBody
  simp only [hx, if_true]
  cases hp : st.policy
  · split
    · exact (pasteItem_fields cfg.use_safe_copy e _).2.1
    · rfl
  · split
    · exact (pasteItem_fields cfg.use_safe_copy e _).2.1
    · rfl
  · split
    · exact (pasteItem_fields cfg.use_safe_copy e _).2.1
    · rfl
  · exact absurd hp h1
  · exact absurd hp h2

/-- On a collision while the stored policy is `SkipAll`, the try body returns
at once: no copy attempt, no state change, no exception. -/
theorem pasteTryBody_skipAll (cfg : Config) (e : Entry) (st : PasteState)
    (hp : st.policy = CopyPolicy.SkipAll) (hx : e.targetExists = true) :
    pasteTryBody cfg e st = (st, none) := by
  unfold pasteTryBody
  cases hp2 : st.policy
  · rw [hp] at hp2; exact CopyPolicy.noConfusion hp2
  · rw [hp] at hp2; exact CopyPolicy.noConfusion hp2
  · rw [hp] at hp2; exact CopyPolicy.noConfusion hp2
  · rw [hx]; rfl
  · rw [hp] at hp2; exact CopyPolicy.noConfusion hp2

/-- A paste-loop iteration on a colliding entry under `SkipAll` leaves the
whole state untouched. -/
theorem processEntry_skipAll (cfg : Config) (rs : List (String → Bool))
    (e : Entry) (st : PasteState)
    (hp : st.policy = CopyPolicy.SkipAll) (hx : e.targetExists = true) :
    processEntry cfg rs e st = st := by
  unfold processEntry
  split
  · unfold processKept
    rw [pasteTryBody_skipAll cfg e st hp hx]
  · rfl

/-- C2: within one paste batch, once the conflict policy is an "All" variant
(`SkipAll` or `ReplaceAll`) the rest of the loop never invokes the interactive
`userDecision` again — its prompt log and the policy are unchanged over any
remaining entry list; and while the stored policy is not an "All" variant,
every kept colliding entry prompts the user (exactly one prompt is logged for
it), as after a skip-once or replace-once answer. -/
theorem conflictPolicy_sticky_and_reprompts :
    (∀ (cfg : Config) (rs : List (String → Bool)) (entries : List Entry)
        (st : PasteState),
        st.policy = CopyPolicy.SkipAll ∨ st.policy = CopyPolicy.ReplaceAll →
        (pasteEntries cfg rs entries st).policy = st.policy ∧
        (pasteEntries cfg rs entries st).asks = st.asks) ∧
    (∀ (cfg : Config) (rs : List (String → Bool)) (e : Entry) (st : PasteState),
        st.policy ≠ CopyPolicy.SkipAll → st.policy ≠ CopyPolicy.ReplaceAll →
        e.targetExists = true → keptByFilter rs e.filename = true →
        (processEntry cfg rs e st).asks = st.asks ++ [e.filename]) := by
  constructor
  · exact fun cfg rs entries st h => pasteEntries_all cfg rs entries st h
  · intro cfg rs e st h1 h2 hx hk
    unfold processEntry
    rw [hk]
    exact (processKept_fields cfg e st).2.1.trans (pasteTryBody_prompt cfg e st h1 h2 hx)

/-- Concrete check of `conflictPolicy_sticky_and_reprompts`: a batch of two
colliding entries under `SkipAll` keeps the policy and never prompts, and a
colliding entry under `Ask` logs one prompt. -/
theorem conflictPolicy_sticky_and_reprompts_witness :
    ((pasteEntries ⟨false, false⟩ []
        [⟨"a", false, 1, true, false, none, none⟩,
         ⟨"b", false, 1, true, false, none, none⟩]
        ⟨⟨0, 0, 0⟩, [], CopyPolicy.SkipAll, [], [], [], [], 0⟩).policy
        = CopyPolicy.SkipAll ∧
      (pasteEntries ⟨false, false⟩ []
        [⟨"a", false, 1, true, false, none, none⟩,
         ⟨"b", false, 1, true, false, none, none⟩]
        ⟨⟨0, 0, 0⟩, [], CopyPolicy.SkipAll, [], [], [], [], 0⟩).asks = []) ∧
    (processEntry ⟨false, false⟩ []
        ⟨"c", false, 1, true, false, none, none⟩
        ⟨⟨0, 0, 0⟩, [], CopyPolicy.Ask, [CopyPolicy.SkipOnce], [], [], [], 0⟩).asks
      = ["c"] :=
  ⟨conflictPolicy_sticky_and_reprompts.1 ⟨false, false⟩ []
      [⟨"a", false, 1, true, false, none, none⟩,
       ⟨"b", false, 1, true, false, none, none⟩]
      ⟨⟨0, 0, 0⟩, [], CopyPolicy.SkipAll, [], [], [], [], 0⟩ (Or.inl rfl),
   conflictPolicy_sticky_and_reprompts.2 ⟨false, false⟩ []
      ⟨"c", false, 1, true, false, none, none⟩
      ⟨⟨0, 0, 0⟩, [], CopyPolicy.Ask, [CopyPolicy.SkipOnce], [], [], [], 0⟩
      (by decide) (by decide) rfl rfl⟩

/-- C4: for an entry whose paste target exists, the conflict policy is
consulted before filesystem equivalence is looked at — under `SkipAll` even a
target equivalent to the source is bypassed entirely, with no success counted
and no failure recorded (the iteration leaves the state untouched). -/
theorem skipAll_checked_before_equivalence (cfg : Config)
    (rs : List (String → Bool)) (e : Entry) (st : PasteState)
    (hp : st.policy = CopyPolicy.SkipAll) (hx : e.targetExists = true)
    (_heq : e.targetEquivalent = true) :
    processEntry cfg rs e st = st :=
  processEntry_skipAll cfg rs e st hp hx

/-- Concrete check of `skipAll_checked_before_equivalence`: an existing,
equivalent target under `SkipAll` yields no success and no failure. -/
theorem skipAll_checked_before_equivalence_witness :
    processEntry ⟨false, false⟩ [] ⟨"y", false, 3, true, true, none, none⟩
        ⟨⟨0, 0, 0⟩, [], CopyPolicy.SkipAll, [], [], [], [], 0⟩
      = ⟨⟨0, 0, 0⟩, [], CopyPolicy.SkipAll, [], [], [], [], 0⟩ :=
  skipAll_checked_before_equivalence ⟨false, false⟩ []
    ⟨"y", false, 3, true, true, none, none⟩
    ⟨⟨0, 0, 0⟩, [], CopyPolicy.SkipAll, [], [], [], [], 0⟩ rfl rfl rfl

/-- C5: a colliding entry under `SkipAll` is bypassed: no copy attempt is made
(the attempt log and the data-movement records are unchanged), no failure is
recorded and no success counter is incremented. -/
theorem skipAll_bypasses_colliding_item (cfg : Config)
    (rs : List (String → Bool)) (e : Entry) (st : PasteState)
    (hp : st.policy = CopyPolicy.SkipAll) (hx : e.targetExists = true) :
    (processEntry cfg rs e st).attempts = st.attempts ∧
    (processEntry cfg rs e st).copied = st.copied ∧
    (processEntry cfg rs e st).bytesWritten = st.bytesWritten ∧
    (processEntry cfg rs e st).failedItems = st.failedItems ∧
    (processEntry cfg rs e st).successes = st.successes := by
  rw [processEntry_skipAll cfg rs e st hp hx]
  exact ⟨rfl, rfl, rfl, rfl, rfl⟩

/-- Concrete check of `skipAll_bypasses_colliding_item`. -/
theorem skipAll_bypasses_colliding_item_witness :
    (processEntry ⟨false, false⟩ [] ⟨"w", true, 9, true, false, none, none⟩
        ⟨⟨2, 1, 0⟩, [], CopyPolicy.SkipAll, [], [], [], [], 0⟩).attempts = [] ∧
    (processEntry ⟨false, false⟩ [] ⟨"w", true, 9, true, false, none, none⟩
        ⟨⟨2, 1, 0⟩, [], CopyPolicy.SkipAll, [], [], [], [], 0⟩).copied = [] ∧
    (processEntry ⟨false, false⟩ [] ⟨"w", true, 9, true, false, none, none⟩
        ⟨⟨2, 1, 0⟩, [], CopyPolicy.SkipAll, [], [], [], [], 0⟩).bytesWritten = 0 ∧
    (processEntry ⟨false, false⟩ [] ⟨"w", true, 9, true, false, none, none⟩
        ⟨⟨2, 1, 0⟩, [], CopyPolicy.SkipAll, [], [], [], [], 0⟩).failedItems = [] ∧
    (processEntry ⟨false, false⟩ [] ⟨"w", true, 9, true, false, none, none⟩
        ⟨⟨2, 1, 0⟩, [], CopyPolicy.SkipAll, [], [], [], [], 0⟩).successes = ⟨2, 1, 0⟩ :=
  skipAll_bypasses_colliding_item ⟨false, false⟩ []
    ⟨"w", true, 9, true, false, none, none⟩
    ⟨⟨2, 1, 0⟩, [], CopyPolicy.SkipAll, [], [], [], [], 0⟩ rfl rfl

/-- C3: pasting a staged entry onto an existing target that is filesystem-
equivalent to it performs no data movement, yet increments the matching
success counter, records no failure, and throws no error. -/
theorem pasteItem_equivalent_counts_success (u : Bool) (e : Entry)
    (st : PasteState) (hx : e.targetExists = true)
    (heq : e.targetEquivalent = true) :
    (pasteItem u e st).2 = none ∧
    ((pasteItem u e st).1).copied = st.copied ∧
    ((pasteItem u e st).1).bytesWritten = st.bytesWritten ∧
    ((pasteItem u e st).1).successes
      = incrementSuccessesForItem e.isDir st.successes ∧
    ((pasteItem u e st).1).failedItems = st.failedItems := by
  unfold pasteItem
  rw [hx, heq]
  exact ⟨rfl, rfl, rfl, rfl, rfl⟩

/-- Concrete check of `pasteItem_equivalent_counts_success`: an equivalent
file target is counted as a file success with zero bytes moved. -/
theorem pasteItem_equivalent_counts_success_witness :
    (pasteItem false ⟨"y", false, 3, true, true, none, none⟩
        ⟨⟨0, 0, 0⟩, [], CopyPolicy.Ask, [], [], [], [], 0⟩).2 = none ∧
    ((pasteItem false ⟨"y", false, 3, true, true, none, none⟩
        ⟨⟨0, 0, 0⟩, [], CopyPolicy.Ask, [], [], [], [], 0⟩).1).copied = [] ∧
    ((pasteItem false ⟨"y", false, 3, true, true, none, none⟩
        ⟨⟨0, 0, 0⟩, [], CopyPolicy.Ask, [], [], [], [], 0⟩).1).bytesWritten = 0 ∧
    ((pasteItem false ⟨"y", false, 3, true, true, none, none⟩
        ⟨⟨0, 0, 0⟩, [], CopyPolicy.Ask, [], [], [], [], 0⟩).1).successes
      = incrementSuccessesForItem false ⟨0, 0, 0⟩ ∧
    ((pasteItem false ⟨"y", false, 3, true, true, none, none⟩
        ⟨⟨0, 0, 0⟩, [], CopyPolicy.Ask, [], [], [], [], 0⟩).1).failedItems = [] :=
  pasteItem_equivalent_counts_success false ⟨"y", false, 3, true, true, none, none⟩
    ⟨⟨0, 0, 0⟩, [], CopyPolicy.Ask, [], [], [], [], 0⟩ rfl rfl

/-- C6: a fast-copy attempt that throws `cross_device_link` is retried with
the safe strategy exactly once (the attempt log grows by the fast attempt and
the safe attempt, nothing more); if the safe retry also throws, exactly one
failure is recorded for the item — carrying the retry's error code — and no
success counter changes. -/
theorem crossDevice_retry_once_single_failure (cfg : Config) (it : Item)
    (st : CopyState) (hs : cfg.use_safe_copy = false)
    (hf : (if it.isDir then it.errPlain else it.errHardLink)
            = some ErrCode.cross_device_link) :
    (copyItem cfg it st).attempts
      = st.attempts ++ [(it.path.str, false), (it.path.str, true)] ∧
    (∀ ec2, it.errPlain = some ec2 →
      (copyItem cfg it st).failedItems = st.failedItems ++ [(it.path.str, ec2)] ∧
      (copyItem cfg it st).successes = st.successes) := by
  cases hd : it.isDir
  · rw [hd] at hf
    simp only [Bool.false_eq_true, if_false] at hf
    constructor
    · cases hp : it.errPlain <;>
        simp [copyItem, actuallyCopyItem, hs, hd, hf, hp, apply_ite, ite_self]
    · intro ec2 hp
      simp [copyItem, actuallyCopyItem, hs, hd, hf, hp]
  · rw [hd] at hf
    simp only [if_true] at hf
    constructor
    · simp [copyItem, actuallyCopyItem, hs, hd, hf]
    · intro ec2 hp
      rw [hp] at hf
      have : ec2 = ErrCode.cross_device_link := by
        injection hf
      subst this
      simp [copyItem, actuallyCopyItem, hs, hd, hp]

/-- Concrete check of `crossDevice_retry_once_single_failure`: the fast copy
of a file throws `cross_device_link`, the safe retry throws `disk_full`; the
item is attempted fast then safe, and exactly one failure is recorded. -/
theorem crossDevice_retry_once_single_failure_witness :
    (copyItem ⟨false, false⟩
        ⟨⟨["a"]⟩, false, 7, some ErrCode.disk_full, some ErrCode.cross_device_link⟩
        ⟨⟨0, 0, 0⟩, [], [], [], [], [], 0⟩).attempts
      = [(Path.str ⟨["a"]⟩, false), (Path.str ⟨["a"]⟩, true)] ∧
    (copyItem ⟨false, false⟩
        ⟨⟨["a"]⟩, false, 7, some ErrCode.disk_full, some ErrCode.cross_device_link⟩
        ⟨⟨0, 0, 0⟩, [], [], [], [], [], 0⟩).failedItems
      = [(Path.str ⟨["a"]⟩, ErrCode.disk_full)] ∧
    (copyItem ⟨false, false⟩
        ⟨⟨["a"]⟩, false, 7, some ErrCode.disk_full, some ErrCode.cross_device_link⟩
        ⟨⟨0, 0, 0⟩, [], [], [], [], [], 0⟩).successes = ⟨0, 0, 0⟩ := by
  have h := crossDevice_retry_once_single_failure ⟨false, false⟩
      ⟨⟨["a"]⟩, false, 7, some ErrCode.disk_full, some ErrCode.cross_device_link⟩
      ⟨⟨0, 0, 0⟩, [], [], [], [], [], 0⟩ rfl rfl
  exact ⟨h.1, (h.2 ErrCode.disk_full rfl).1, (h.2 ErrCode.disk_full rfl).2⟩

/-- C7: copying a directory creates the destination directory under the
source path's final component when that component is non-empty, and under the
filename of the source's parent path otherwise (trailing separator or root,
encoded by an empty final component). -/
theorem copyItem_directory_dest_name (cfg : Config) (it : Item) (st : CopyState)
    (cs : List String) (c : String)
    (hd : it.isDir = true) (hc : it.path.comps = cs ++ [c])
    (hok : it.errPlain = none) :
    (copyItem cfg it st).createdDirs
      = st.createdDirs ++ [if c = "" then cs.getLast?.getD "" else c] ∧
    it.path.filename = c ∧
    (it.path.parent_path).filename = cs.getLast?.getD "" := by
  have hfn : it.path.filename = c := by
    unfold Path.filename
    rw [hc]
    simp
  have hpn : (it.path.parent_path).filename = cs.getLast?.getD "" := by
    unfold Path.parent_path Path.filename
    rw [hc]
    simp
  refine ⟨?_, hfn, hpn⟩
  simp [copyItem, actuallyCopyItem, hd, hok, hfn, hpn, apply_ite, ite_self]

/-- Concrete check of `copyItem_directory_dest_name`: copying the directory
path `a/b/` (trailing separator, so an empty final component) creates the
destination directory `b`, the parent's filename. -/
theorem copyItem_directory_dest_name_witness :
    (copyItem ⟨false, false⟩ ⟨⟨["a", "b", ""]⟩, true, 7, none, none⟩
        ⟨⟨0, 0, 0⟩, [], [], [], [], [], 0⟩).createdDirs = ["b"] ∧
    Path.filename ⟨["a", "b", ""]⟩ = "" ∧
    Path.filename (Path.parent_path ⟨["a", "b", ""]⟩) = "b" := by
  have h := copyItem_directory_dest_name ⟨false, false⟩
      ⟨⟨["a", "b", ""]⟩, true, 7, none, none⟩
      ⟨⟨0, 0, 0⟩, [], [], [], [], [], 0⟩ ["a", "b"] "" rfl rfl rfl
  exact ⟨h.1, h.2.1, h.2.2⟩

/-- C8: with a non-empty compiled filter, a staged entry is processed exactly
when some pattern's whole-filename match accepts it: a non-matching entry is
skipped up front with the state untouched (no success, no failure), and a
matching entry is processed exactly as it would be with no filter at all. -/
theorem paste_filter_whole_match (cfg : Config) (rs : List (String → Bool))
    (e : Entry) (st : PasteState) (hne : rs ≠ []) :
    (rs.any (fun r => r e.filename) = false → processEntry cfg rs e st = st) ∧
    (rs.any (fun r => r e.filename) = true →
      processEntry cfg rs e st = processEntry cfg [] e st) := by
  have hemp : rs.isEmpty = false := by
    cases rs
    · exact absurd rfl hne
    · rfl
  constructor
  · intro hm
    unfold processEntry keptByFilter
    rw [hm, hemp]
    rfl
  · intro hm
    unfold processEntry keptByFilter
    rw [hm, hemp]
    rfl

/-- Concrete check of `paste_filter_whole_match`: with the filter matching
exactly the filename `apple.txt`, the entry `banana.txt` is left untouched
and `apple.txt` is processed as without a filter. -/
theorem paste_filter_whole_match_witness :
    processEntry ⟨false, false⟩ [fun s => s == "apple.txt"]
        ⟨"banana.txt", false, 1, false, false, none, none⟩
        ⟨⟨0, 0, 0⟩, [], CopyPolicy.Ask, [], [], [], [], 0⟩
      = ⟨⟨0, 0, 0⟩, [], CopyPolicy.Ask, [], [], [], [], 0⟩ ∧
    processEntry ⟨false, false⟩ [fun s => s == "apple.txt"]
        ⟨"apple.txt", false, 1, false, false, none, none⟩
        ⟨⟨0, 0, 0⟩, [], CopyPolicy.Ask, [], [], [], [], 0⟩
      = processEntry ⟨false, false⟩ []
          ⟨"apple.txt", false, 1, false, false, none, none⟩
          ⟨⟨0, 0, 0⟩, [], CopyPolicy.Ask, [], [], [], [], 0⟩ :=
  ⟨(paste_filter_whole_match ⟨false, false⟩ [fun s => s == "apple.txt"]
      ⟨"banana.txt", false, 1, false, false, none, none⟩
      ⟨⟨0, 0, 0⟩, [], CopyPolicy.Ask, [], [], [], [], 0⟩
      (List.cons_ne_nil _ _)).1 rfl,
   (paste_filter_whole_match ⟨false, false⟩ [fun s => s == "apple.txt"]
      ⟨"apple.txt", false, 1, false, false, none, none⟩
      ⟨⟨0, 0, 0⟩, [], CopyPolicy.Ask, [], [], [], [], 0⟩
      (List.cons_ne_nil _ _)).2 rfl⟩

/-- Compiling a pattern list containing an invalid pattern yields no compiled
set at all (the first invalid pattern throws out of the transform). -/
theorem compileRegexes_none_of_invalid :
    ∀ ps : List Pat, (∃ p ∈ ps, p.valid = false) → compileRegexes ps = none := by
  intro ps
  induction ps with
  | nil => rintro ⟨p, hp, _⟩; cases hp
  | cons q qs ih =>
    rintro ⟨p, hp, hv⟩
    unfold compileRegexes
    rcases List.mem_cons.mp hp with h | h
    · subst h
      rw [hv]
      rfl
    · cases hq : q.valid
      · rfl
      · rw [ih ⟨p, h, hv⟩]
        rfl

/-- C9: an invalid filter pattern aborts the whole paste before the entry loop
runs: the abort flag is set and the state is returned exactly as it came in —
no staged entry visited, nothing copied, zero recorded outcomes. -/
theorem paste_invalid_pattern_aborts (cfg : Config) (patterns : List Pat)
    (entries : List Entry) (st : PasteState)
    (h : ∃ p ∈ patterns, p.valid = false) :
    paste cfg patterns entries st = (true, st) := by
  unfold paste
  rw [compileRegexes_none_of_invalid patterns h]

/-- Concrete check of `paste_invalid_pattern_aborts`: one invalid pattern,
one staged entry that would otherwise be pasted; the operation aborts with
the initial state. -/
theorem paste_invalid_pattern_aborts_witness :
    paste ⟨false, false⟩ [⟨false, fun _ => true, fun s => s⟩]
        [⟨"a", false, 1, false, false, none, none⟩]
        ⟨⟨0, 0, 0⟩, [], CopyPolicy.Ask, [], [], [], [], 0⟩
      = (true, ⟨⟨0, 0, 0⟩, [], CopyPolicy.Ask, [], [], [], [], 0⟩) :=
  paste_invalid_pattern_aborts ⟨false, false⟩ [⟨false, fun _ => true, fun s => s⟩]
    [⟨"a", false, 1, false, false, none, none⟩]
    ⟨⟨0, 0, 0⟩, [], CopyPolicy.Ask, [], [], [], [], 0⟩
    ⟨⟨false, fun _ => true, fun s => s⟩, List.mem_cons_self _ _, rfl⟩

/-- C1 fails on the paste engine: at this concrete input the fast copy of a
non-colliding entry throws `permission_denied` — not a cross-device error —
yet paste retries it with the safe strategy (two logged attempts) and, the
retry succeeding, records no failure and counts a success, contradicting the
claim that any non-cross-device filesystem error is recorded as a failure
immediately with no safe-copy retry. -/
theorem paste_retries_any_error_counterexample :
    (processEntry ⟨false, false⟩ []
        ⟨"x", false, 5, false, false, none, some ErrCode.permission_denied⟩
        ⟨⟨0, 0, 0⟩, [], CopyPolicy.Ask, [], [], [], [], 0⟩).failedItems = [] ∧
    (processEntry ⟨false, false⟩ []
        ⟨"x", false, 5, false, false, none, some ErrCode.permission_denied⟩
        ⟨⟨0, 0, 0⟩, [], CopyPolicy.Ask, [], [], [], [], 0⟩).attempts
      = [("x", false), ("x", true)] ∧
    (processEntry ⟨false, false⟩ []
        ⟨"x", false, 5, false, false, none, some ErrCode.permission_denied⟩
        ⟨⟨0, 0, 0⟩, [], CopyPolicy.Ask, [], [], [], [], 0⟩).successes.files = 1 :=
  ⟨rfl, rfl, rfl⟩

/-- C1 amended: in `copyItem` a failed fast-copy attempt is retried with the
safe strategy only when the error code is `cross_device_link` — any other
code is recorded as a failure immediately, with no second attempt; in `paste`,
however, a failed fast-copy attempt is retried with the safe strategy for
every error code (whenever the default strategy is not already the safe
one). -/
theorem fastCopy_retry_rule_copy_vs_paste :
    (∀ (cfg : Config) (it : Item) (st : CopyState) (ec : ErrCode),
        cfg.use_safe_copy = false → it.isDir = false →
        it.errHardLink = some ec → ec ≠ ErrCode.cross_device_link →
        copyItem cfg it st
          = { st with attempts := st.attempts ++ [(it.path.str, false)],
                      failedItems := st.failedItems ++ [(it.path.str, ec)] }) ∧
    (∀ (cfg : Config) (e : Entry) (st : PasteState) (ec : ErrCode),
        cfg.use_safe_copy = false → e.targetExists = false → e.isDir = false →
        e.errHardLink = some ec →
        (processEntry cfg [] e st).attempts
          = st.attempts ++ [(e.filename, false), (e.filename, true)]) := by
  constructor
  · intro cfg it st ec hs hd hh hne
    simp [copyItem, actuallyCopyItem, hs, hd, hh, hne]
  · intro cfg e st ec hs hx hd hh
    cases hp : e.errPlain <;>
      simp [processEntry, keptByFilter, processKept, pasteTryBody, pasteItem,
            hs, hx, hd, hh, hp]

/-- Concrete check of `fastCopy_retry_rule_copy_vs_paste`: `copyItem` records
the `permission_denied` failure after a single fast attempt, while the paste
loop retries a `not_found` fast failure with the safe strategy. -/
theorem fastCopy_retry_rule_copy_vs_paste_witness :
    copyItem ⟨false, false⟩ ⟨⟨["f"]⟩, false, 4, none, some ErrCode.permission_denied⟩
        ⟨⟨0, 0, 0⟩, [], [], [], [], [], 0⟩
      = ⟨⟨0, 0, 0⟩, [(Path.str ⟨["f"]⟩, ErrCode.permission_denied)], [],
          [(Path.str ⟨["f"]⟩, false)], [], [], 0⟩ ∧
    (processEntry ⟨false, false⟩ []
        ⟨"g", false, 2, false, false, none, some ErrCode.not_found⟩
        ⟨⟨0, 0, 0⟩, [], CopyPolicy.Ask, [], [], [], [], 0⟩).attempts
      = [("g", false), ("g", true)] :=
  ⟨fastCopy_retry_rule_copy_vs_paste.1 ⟨false, false⟩
      ⟨⟨["f"]⟩, false, 4, none, some ErrCode.permission_denied⟩
      ⟨⟨0, 0, 0⟩, [], [], [], [], [], 0⟩ ErrCode.permission_denied
      rfl rfl rfl (by decide),
   fastCopy_retry_rule_copy_vs_paste.2 ⟨false, false⟩
      ⟨"g", false, 2, false, false, none, some ErrCode.not_found⟩
      ⟨⟨0, 0, 0⟩, [], CopyPolicy.Ask, [], [], [], [], 0⟩ ErrCode.not_found
      rfl rfl rfl rfl⟩

/-- C10: a pattern-based removal that matches nothing is fatal: in text mode,
when applying every pattern leaves the content length unchanged, the content
file is not rewritten (`written = none`) and the handler exits with failure;
in file mode, when the run ends with zero removed files and zero removed
directories, the handler exits with failure. -/
theorem removeRegex_no_match_fatal :
    (∀ (replacers : List (String → String)) (content : String),
        (replacers.foldl (fun c r => r c) content).length = content.length →
        removeRegexText replacers content
          = { exitedWithFailure := true, written := none, bytesRemoved := 0 }) ∧
    (∀ (regexes : List (String → Bool)) (entries : List RmEntry) (st : RmState),
        ((entries.foldl (fun s en => removeEntry regexes en s) st).successes).directories = 0 →
        ((entries.foldl (fun s en => removeEntry regexes en s) st).successes).files = 0 →
        (removeRegexFiles regexes entries st).1 = true) := by
  constructor
  · intro replacers content h
    simp [removeRegexText, h]
  · intro regexes entries st h1 h2
    simp [removeRegexFiles, h1, h2]

/-- Concrete check of `removeRegex_no_match_fatal`: an identity replacement
leaves `abc` unchanged, so text mode exits with failure without rewriting;
a never-matching pattern removes nothing, so file mode exits with failure. -/
theorem removeRegex_no_match_fatal_witness :
    removeRegexText [fun s => s] "abc" = ⟨true, none, 0⟩ ∧
    (removeRegexFiles [fun _ => false] [⟨"f", false, none⟩]
        ⟨⟨0, 0, 0⟩, [], []⟩).1 = true :=
  ⟨removeRegex_no_match_fatal.1 [fun s => s] "abc" rfl,
   removeRegex_no_match_fatal.2 [fun _ => false] [⟨"f", false, none⟩]
     ⟨⟨0, 0, 0⟩, [], []⟩ rfl rfl⟩

end Clipboard
